import Mathlib

/-!
# Verification of the Olist dashboard aggregation pipeline (`app.py`)

A shallow embedding of the data-preparation and aggregation code of
`app.py` (an Olist e-commerce dashboard).  The pandas DataFrame is
modelled as a list of typed rows together with column-presence flags for
the three columns whose presence the script tests or requires
(`delivery_time_days`, `order_delivered_customer_date`,
`order_purchase_timestamp`).  Accessing an absent column is a pandas
`KeyError`; the preparation stage is therefore `Except`-valued.

Monetary amounts and delivery durations are modelled as integers
(`price` in minor currency units, `delivery_time_days` in whole days, as
produced by `Timedelta.dt.days`); every property proved below concerns
sums, counts and order comparisons, which are parametric in that choice.
Group means are rationals.

pandas semantics mirrored here:
* `groupby` sorts the group keys ascending and drops missing keys;
* `Series.unique` keeps first occurrences (`List.dedup` keeps last ones,
  which is irrelevant after sorting: same set, same sorted list);
* comparisons with a missing value (`NaN >= 0`, `NaN == y`) are `False`;
* `.dt.days` of a timestamp difference floors towards minus infinity.
-/

/-- A calendar instant: absolute epoch seconds together with its calendar
year and month (the only calendar fields the script extracts, via
`.dt.year` and `.dt.to_period('M')`). -/
structure Timestamp where
  year : Int
  month : Int
  sec : Int
deriving DecidableEq

/-- One row of the dataset (an order-item line).  `Option` marks values
that can be missing (`NaN` / `NaT`) in the CSV. -/
structure Row where
  order_id : String
  order_purchase_timestamp : Option Timestamp
  order_delivered_customer_date : Option Timestamp
  price : Int
  product_category_name : Option String
  review_score : Option Int
  delivery_time_days : Option Int
deriving DecidableEq

/-- The DataFrame: rows plus presence flags for the three columns whose
presence the script branches on (lines 48–49) or unconditionally indexes
(lines 55, 59).  When a flag is `false` the corresponding row field is
never read by the model, matching the `KeyError` a real access raises. -/
structure Table where
  hasDeliveryTimeDaysCol : Bool
  hasDeliveredDateCol : Bool
  hasPurchaseTimestampCol : Bool
  rows : List Row
deriving DecidableEq

/-- Lines 50–52:
`(df['order_delivered_customer_date'] - df['order_purchase_timestamp']).dt.days`,
the whole-day floor of the elapsed time; `NaT` propagates to a
missing result. -/
def deliveryDays (delivered purchase : Option Timestamp) : Option Int :=
  match delivered, purchase with
  | some d, some p => some (Int.fdiv (d.sec - p.sec) 86400)
  | _, _ => none

/-- Lines 50–52, per row: store the derived day difference in the
`delivery_time_days` column. -/
def setDerivedDelivery (r : Row) : Row :=
  { r with delivery_time_days :=
      deliveryDays r.order_delivered_customer_date r.order_purchase_timestamp }

/-- Lines 47–52: derive `delivery_time_days` when the column is absent and
both source columns are present; otherwise leave the table unchanged. -/
def deriveDeliveryTimeDays (t : Table) : Table :=
  if t.hasDeliveryTimeDaysCol then t
  else if t.hasDeliveredDateCol && t.hasPurchaseTimestampCol then
    { t with hasDeliveryTimeDaysCol := true, rows := t.rows.map setDerivedDelivery }
  else t

/-- Line 55: `df['delivery_time_days'].notna()`. -/
def notnaDelivery (r : Row) : Bool := r.delivery_time_days.isSome

/-- Line 56: `df['delivery_time_days'] >= 0`; a missing value compares
`False` in pandas. -/
def nonnegDelivery (r : Row) : Bool :=
  match r.delivery_time_days with
  | some d => decide (0 ≤ d)
  | none => false

/-- Lines 47–60, the preparation stage: derive `delivery_time_days` if
absent, drop rows with missing (line 55) then negative (line 56) delivery
time, and add the period columns (lines 59–60).  Indexing an absent
column raises `KeyError`: line 55 needs `delivery_time_days`, line 59
needs `order_purchase_timestamp`.  The period columns `order_year_month`
and `order_year` are recovered from `order_purchase_timestamp` by the
functions below, so the output table keeps the same row type. -/
def prepare (t : Table) : Except String Table :=
  let t1 := deriveDeliveryTimeDays t
  if t1.hasDeliveryTimeDaysCol then
    let t2 := { t1 with rows := (t1.rows.filter notnaDelivery).filter nonnegDelivery }
    if t2.hasPurchaseTimestampCol then
      Except.ok t2
    else
      Except.error "KeyError: order_purchase_timestamp"
  else
    Except.error "KeyError: delivery_time_days"

/-- Line 60: `df['order_purchase_timestamp'].dt.year`; missing for `NaT`. -/
def order_year (r : Row) : Option Int :=
  r.order_purchase_timestamp.map Timestamp.year

/-- Line 59 / lines 92, 110: `df['order_purchase_timestamp'].dt.to_period('M')`
as a (year, month) pair; missing for `NaT`. -/
def order_year_month (r : Row) : Option (Int × Int) :=
  r.order_purchase_timestamp.map (fun ts => (ts.year, ts.month))

/-- The sidebar selection: the `'Semua'` ("all years") sentinel or a year. -/
inductive YearSel where
  | semua : YearSel
  | tahun (y : Int) : YearSel
deriving DecidableEq

/-- Line 67, the year list behind `tahun_opsi`:
`sorted(df['order_year'].dropna().unique().tolist())`. -/
def sortedYears (rows : List Row) : List Int :=
  List.insertionSort (· ≤ ·) ((rows.filterMap order_year).dedup)

/-- Line 67: `['Semua'] + sorted(df['order_year'].dropna().unique().tolist())`. -/
def tahun_opsi (rows : List Row) : List YearSel :=
  YearSel.semua :: (sortedYears rows).map YearSel.tahun

/-- Lines 71–73: the year filter.  `NaN == y` is `False`, so rows with a
missing year never match a concrete year. -/
def filtered_df (rows : List Row) : YearSel → List Row
  | YearSel.semua => rows
  | YearSel.tahun y => rows.filter (fun r => decide (order_year r = some y))

/-- pandas `groupby` over a possibly-missing key: keys are the distinct
non-missing key values, sorted ascending (`sort=True`, `dropna=True`);
each group holds the rows carrying that key, in order. -/
def groupBy {K : Type} [DecidableEq K] (rel : K → K → Prop) [DecidableRel rel]
    (key : Row → Option K) (rows : List Row) : List (K × List Row) :=
  (List.insertionSort rel (rows.filterMap key).dedup).map
    (fun k => (k, rows.filter (fun r => decide (key r = some k))))

/-- Chronological order on `(year, month)` periods. -/
def periodLe (a b : Int × Int) : Prop :=
  a.1 < b.1 ∨ (a.1 = b.1 ∧ a.2 ≤ b.2)

instance : DecidableRel periodLe := fun a b => by
  unfold periodLe; infer_instance

/-- Lines 91–95: monthly distinct order counts —
`filtered_df.groupby(purchase month)['order_id'].nunique()`. -/
def orders_per_month (rows : List Row) : List ((Int × Int) × Nat) :=
  (groupBy periodLe order_year_month rows).map
    (fun g => (g.1, ((g.2.map Row.order_id).dedup).length))

/-- Lines 109–113: monthly revenue —
`filtered_df.groupby(purchase month)['price'].sum()`. -/
def revenue_per_month (rows : List Row) : List ((Int × Int) × Int) :=
  (groupBy periodLe order_year_month rows).map
    (fun g => (g.1, (g.2.map Row.price).sum))

/-- Lexicographic comparison of character lists by codepoint. -/
def charLe : List Char → List Char → Bool
  | [], _ => true
  | _ :: _, [] => false
  | a :: as, b :: bs => if a = b then charLe as bs else decide (a.toNat < b.toNat)

/-- Ascending string order for `groupby`'s sorted category keys
(codepoint-lexicographic; the particular total order on the keys is
irrelevant to every property proved here). -/
def strLe (a b : String) : Prop := charLe a.toList b.toList = true

instance : DecidableRel strLe := fun a b => by
  unfold strLe; infer_instance

/-- Descending-revenue order used by `sort_values(ascending=False)`. -/
def revDesc (a b : String × Int) : Prop := b.2 ≤ a.2

instance : DecidableRel revDesc := fun a b => by
  unfold revDesc; infer_instance

/-- Lines 127–133: top-10 categories —
`groupby('product_category_name')['price'].sum().sort_values(ascending=False).head(10)`. -/
def top10_products (rows : List Row) : List (String × Int) :=
  (List.insertionSort revDesc
    ((groupBy strLe Row.product_category_name rows).map
      (fun g => (g.1, (g.2.map Row.price).sum)))).take 10

/-- The summed revenue of one category over a row list. -/
def categoryRevenue (rows : List Row) (c : String) : Int :=
  ((rows.filter (fun r => decide (r.product_category_name = some c))).map Row.price).sum

/-- pandas `Series.mean()`: arithmetic mean of the non-missing values. -/
def mean (l : List Int) : ℚ := (l.sum : ℚ) / (l.length : ℚ)

/-- Lines 163–166: mean delivery time per review score —
`filtered_df.groupby('review_score')['delivery_time_days'].mean()`. -/
def delivery_vs_review (rows : List Row) : List (Int × ℚ) :=
  (groupBy (· ≤ ·) Row.review_score rows).map
    (fun g => (g.1, mean (g.2.filterMap Row.delivery_time_days)))

/-- Ascending review-score order used by `sort_values(by='review_score')`. -/
def scoreAsc (a b : Int × ℚ) : Prop := a.1 ≤ b.1

instance : DecidableRel scoreAsc := fun a b => by
  unfold scoreAsc; infer_instance

/-- Lines 177–181: the same aggregate, then
`.sort_values(by='review_score', ascending=True)`. -/
def avg_delivery (rows : List Row) : List (Int × ℚ) :=
  List.insertionSort scoreAsc (delivery_vs_review rows)

/-- Line 155: the series handed to the 40-bin histogram,
`filtered_df['delivery_time_days']` (the renderer drops missing values). -/
def deliverySeries (rows : List Row) : List Int :=
  rows.filterMap Row.delivery_time_days

/-- Whether `pat` matches at the start of `s`. -/
def leadsWith : List Char → List Char → Bool
  | [], _ => true
  | _ :: _, [] => false
  | a :: as, b :: bs => a == b && leadsWith as bs

/-- Whether `pat` occurs contiguously somewhere in `s`. -/
def occursIn (pat : List Char) : List Char → Bool
  | [] => leadsWith pat []
  | b :: bs => leadsWith pat (b :: bs) || occursIn pat bs

/-- Python's substring test `pat in s`. -/
def hasSubstr (s pat : String) : Bool := occursIn pat.toList s.toList

/-- Line 40: `"date" in col or "timestamp" in col`. -/
def isDateCol (name : String) : Bool :=
  hasSubstr name "date" || hasSubstr name "timestamp"

/-- Lines 40–45, the best-effort datetime coercion loop, generic in the
cell representation `α`.  `toDatetime` models
`pd.to_datetime(·, errors='coerce')`, which may raise (modelled by
`none`); the `try/except: pass` keeps the column unchanged then.
Non-date-like columns are never touched. -/
def coerceDateCols {α : Type} (toDatetime : String → α → Option α)
    (cols : List (String × α)) : List (String × α) :=
  cols.map (fun c =>
    if isDateCol c.1 then
      match toDatetime c.1 c.2 with
      | some v => (c.1, v)
      | none => c
    else c)

instance : IsTotal (String × Int) revDesc :=
  ⟨fun a b => le_total b.2 a.2⟩

instance : IsTrans (String × Int) revDesc :=
  ⟨fun _ _ _ hab hbc => le_trans hbc hab⟩

/-- January 2023 instant. -/
def tsA : Timestamp := ⟨2023, 1, 400000⟩

/-- February 2023 instant. -/
def tsB : Timestamp := ⟨2023, 2, 3000000⟩

/-- Demo rows with every purchase timestamp present. -/
def wRow1 : Row := ⟨"o1", some tsA, some tsA, 100, some "toys", some 4, some 5⟩

/-- Second demo row. -/
def wRow2 : Row := ⟨"o2", some tsA, some tsA, 50, some "toys", some 5, some 2⟩

/-- Demo filtered table for witnesses. -/
def wRows : List Row := [wRow1, wRow2]

/-- A row whose `delivery_time_days` pre-exists while the purchase
timestamp is missing: it survives preparation yet belongs to no month. -/
def rowNoPurchase : Row := ⟨"o9", none, none, 100, some "toys", some 3, some 1⟩

/-- The same order identifier purchased in two different months. -/
def cx5Row1 : Row := ⟨"o1", some tsA, some tsA, 10, some "toys", some 4, some 1⟩

/-- Second item line of the same order, one month later. -/
def cx5Row2 : Row := ⟨"o1", some tsB, some tsB, 10, some "toys", some 4, some 1⟩

/-- A demo row with the given order id, category and price. -/
def mkCatRow (i c : String) (p : Int) : Row :=
  ⟨i, some tsA, some tsA, p, some c, some 5, some 1⟩

/-- Eleven categories with distinct revenues: one must be excluded. -/
def c3Rows : List Row :=
  [mkCatRow "i01" "c01" 110, mkCatRow "i02" "c02" 100, mkCatRow "i03" "c03" 90,
   mkCatRow "i04" "c04" 80, mkCatRow "i05" "c05" 70, mkCatRow "i06" "c06" 60,
   mkCatRow "i07" "c07" 50, mkCatRow "i08" "c08" 40, mkCatRow "i09" "c09" 30,
   mkCatRow "i10" "c10" 20, mkCatRow "i11" "c11" 10]

/-! ## Infrastructure lemmas -/

/-- The rows kept by the preparation filters (lines 55–56). -/
def prepRows (rows : List Row) : List Row :=
  (rows.filter notnaDelivery).filter nonnegDelivery

theorem prepare_ok_iff (t : Table) :
    (deriveDeliveryTimeDays t).hasDeliveryTimeDaysCol = true →
    (deriveDeliveryTimeDays t).hasPurchaseTimestampCol = true →
    prepare t = Except.ok
      { deriveDeliveryTimeDays t with rows := prepRows (deriveDeliveryTimeDays t).rows } := by
  intro h1 h2
  unfold prepare prepRows
  simp [h1, h2]

theorem map_fst_groupBy {K : Type} [DecidableEq K] (rel : K → K → Prop) [DecidableRel rel]
    (key : Row → Option K) (rows : List Row) :
    (groupBy rel key rows).map Prod.fst
      = List.insertionSort rel (rows.filterMap key).dedup := by
  simp [groupBy, List.map_map, Function.comp_def]

theorem groupBy_keys_nodup {K : Type} [DecidableEq K] (rel : K → K → Prop) [DecidableRel rel]
    (key : Row → Option K) (rows : List Row) :
    ((groupBy rel key rows).map Prod.fst).Nodup := by
  rw [map_fst_groupBy]
  exact ((List.perm_insertionSort rel _).nodup_iff).mpr ((rows.filterMap key).nodup_dedup)

theorem mem_groupBy_keys {K : Type} [DecidableEq K] (rel : K → K → Prop) [DecidableRel rel]
    (key : Row → Option K) (rows : List Row) (k : K) :
    k ∈ (groupBy rel key rows).map Prod.fst ↔ some k ∈ rows.map key := by
  rw [map_fst_groupBy]
  simp [List.mem_filterMap, List.mem_map]

theorem mem_groupBy_eq {K : Type} [DecidableEq K] (rel : K → K → Prop) [DecidableRel rel]
    (key : Row → Option K) (rows : List Row) (g : K × List Row)
    (hg : g ∈ groupBy rel key rows) :
    g.2 = rows.filter (fun r => decide (key r = some g.1)) := by
  unfold groupBy at hg
  rcases List.mem_map.mp hg with ⟨k, _, hk⟩
  cases hk
  rfl

theorem sum_map_congr {K M : Type} [AddCommMonoid M] {ks : List K} {F G : K → M}
    (h : ∀ k ∈ ks, F k = G k) : (ks.map F).sum = (ks.map G).sum := by
  rw [List.map_congr_left h]

theorem sum_map_update {K M : Type} [AddCommMonoid M] [DecidableEq K]
    {ks : List K} (hnd : ks.Nodup) {k₀ : K} (hk : k₀ ∈ ks) {F G : K → M} {c : M}
    (h₀ : F k₀ = c + G k₀) (h : ∀ k, k ≠ k₀ → F k = G k) :
    (ks.map F).sum = c + (ks.map G).sum := by
  induction ks with
  | nil => cases hk
  | cons a l ih =>
    rcases List.nodup_cons.mp hnd with ⟨hal, hl⟩
    rcases List.mem_cons.mp hk with rfl | hmem
    · have htail : l.map F = l.map G :=
        List.map_congr_left (fun k hkl => h k (fun hne => hal (hne ▸ hkl)))
      simp only [List.map_cons, List.sum_cons, h₀, htail]
      rw [add_assoc]
    · have hne : a ≠ k₀ := fun he => hal (he ▸ hmem)
      simp only [List.map_cons, List.sum_cons, h a hne, ih hl hmem]
      rw [add_left_comm]

theorem sum_groups_eq {K M : Type} [DecidableEq K] [AddCommMonoid M]
    (key : Row → Option K) (f : Row → M) (ks : List K) (hnd : ks.Nodup)
    (rows : List Row) (hcov : ∀ r ∈ rows, ∀ k, key r = some k → k ∈ ks) :
    (ks.map (fun k => ((rows.filter (fun r => decide (key r = some k))).map f).sum)).sum
      = ((rows.filter (fun r => (key r).isSome)).map f).sum := by
  induction rows with
  | nil => simp
  | cons r rest ih =>
    have hcov' : ∀ x ∈ rest, ∀ k, key x = some k → k ∈ ks :=
      fun x hx => hcov x (List.mem_cons_of_mem _ hx)
    cases hkr : key r with
    | none =>
      have hcong : ∀ k ∈ ks,
          ((List.filter (fun x => decide (key x = some k)) (r :: rest)).map f).sum
            = ((List.filter (fun x => decide (key x = some k)) rest).map f).sum := by
        intro k _
        simp [List.filter_cons, hkr]
      rw [sum_map_congr hcong, ih hcov']
      simp [List.filter_cons, hkr]
    | some k₀ =>
      have hk₀ : k₀ ∈ ks := hcov r (List.mem_cons_self r rest) k₀ hkr
      have h₀ : ((List.filter (fun x => decide (key x = some k₀)) (r :: rest)).map f).sum
          = f r + ((List.filter (fun x => decide (key x = some k₀)) rest).map f).sum := by
        simp [List.filter_cons, hkr]
      have hoth : ∀ k, k ≠ k₀ →
          ((List.filter (fun x => decide (key x = some k)) (r :: rest)).map f).sum
            = ((List.filter (fun x => decide (key x = some k)) rest).map f).sum := by
        intro k hne
        have : (decide (key r = some k)) = false := by
          simp [hkr]
          exact fun he => hne he.symm
        simp [List.filter_cons, this]
      rw [sum_map_update hnd hk₀ h₀ hoth, ih hcov']
      simp [List.filter_cons, hkr]

theorem sum_snd_groupBy_val {K M : Type} [DecidableEq K] [AddCommMonoid M]
    (rel : K → K → Prop) [DecidableRel rel] (key : Row → Option K) (f : Row → M)
    (rows : List Row) :
    ((groupBy rel key rows).map (fun g => (g.2.map f).sum)).sum
      = ((rows.filter (fun r => (key r).isSome)).map f).sum := by
  have hform : (groupBy rel key rows).map (fun g => (g.2.map f).sum)
      = (List.insertionSort rel (rows.filterMap key).dedup).map
          (fun k => ((rows.filter (fun r => decide (key r = some k))).map f).sum) := by
    simp [groupBy, List.map_map, Function.comp_def]
  rw [hform]
  apply sum_groups_eq
  · exact ((List.perm_insertionSort rel _).nodup_iff).mpr ((rows.filterMap key).nodup_dedup)
  · intro r hr k hk
    simp [List.mem_insertionSort, List.mem_dedup, List.mem_filterMap]
    exact ⟨r, hr, hk⟩

/-! ## Claim C4: monthly revenue conservation -/

/-- C4 (amended): the monthly revenue view's total equals the sum of
`price` over the rows of the filtered table whose purchase timestamp is
present; when every row's purchase timestamp is present this is the sum
of `price` over the entire filtered table. -/
theorem C4_monthly_revenue_conservation (rows : List Row) :
    ((revenue_per_month rows).map Prod.snd).sum
      = ((rows.filter (fun r => r.order_purchase_timestamp.isSome)).map Row.price).sum
    ∧ ((∀ r ∈ rows, r.order_purchase_timestamp.isSome) →
        ((revenue_per_month rows).map Prod.snd).sum = (rows.map Row.price).sum) := by
  have hmain : ((revenue_per_month rows).map Prod.snd).sum
      = ((rows.filter (fun r => r.order_purchase_timestamp.isSome)).map Row.price).sum := by
    have h1 : (revenue_per_month rows).map Prod.snd
        = (groupBy periodLe order_year_month rows).map (fun g => (g.2.map Row.price).sum) := by
      simp [revenue_per_month, List.map_map, Function.comp_def]
    have h2 : (rows.filter (fun r => (order_year_month r).isSome))
        = (rows.filter (fun r => r.order_purchase_timestamp.isSome)) := by
      apply List.filter_congr
      intro r _
      simp [order_year_month]
    rw [h1, sum_snd_groupBy_val periodLe order_year_month Row.price rows, h2]
  refine ⟨hmain, fun hall => ?_⟩
  rw [hmain, List.filter_eq_self.mpr hall]

/-- Witness for C4: at a table whose purchase timestamps are all present,
the monthly revenue total equals the full `price` total. -/
theorem C4_witness :
    (∀ r ∈ wRows, r.order_purchase_timestamp.isSome)
  ∧ ((revenue_per_month wRows).map Prod.snd).sum = (wRows.map Row.price).sum :=
  ⟨by decide, (C4_monthly_revenue_conservation wRows).2 (by decide)⟩

/-- Counterexample to C4 as stated: a prepared (and sentinel-filtered)
table containing a row with a pre-existing non-negative
`delivery_time_days` but a missing purchase timestamp; the row's price is
in the table total but in no monthly group, so the monthly revenue total
differs from the table's `price` total. -/
theorem C4_counterexample :
    prepare (Table.mk true true true [rowNoPurchase])
      = Except.ok (Table.mk true true true [rowNoPurchase])
  ∧ ((revenue_per_month (filtered_df [rowNoPurchase] YearSel.semua)).map Prod.snd).sum
      ≠ ((filtered_df [rowNoPurchase] YearSel.semua).map Row.price).sum :=
  ⟨rfl, by decide⟩

/-! ## Claim C7: year filter and selectable options -/

/-- C7: the sentinel returns the full table; a year selection returns
exactly (and only) the rows with that `order_year`, in order; the option
list is the sentinel followed by the sorted, deduplicated non-missing
`order_year` values of the prepared table. -/
theorem C7_year_filter (rows : List Row) :
    filtered_df rows YearSel.semua = rows
  ∧ (∀ y r, r ∈ filtered_df rows (YearSel.tahun y) ↔ r ∈ rows ∧ order_year r = some y)
  ∧ (∀ y, (filtered_df rows (YearSel.tahun y)).Sublist rows)
  ∧ tahun_opsi rows = YearSel.semua :: (sortedYears rows).map YearSel.tahun
  ∧ (sortedYears rows).Sorted (· ≤ ·)
  ∧ (sortedYears rows).Nodup
  ∧ (∀ y, y ∈ sortedYears rows ↔ some y ∈ rows.map order_year) := by
  refine ⟨rfl, ?_, ?_, rfl, ?_, ?_, ?_⟩
  · intro y r
    simp [filtered_df, List.mem_filter]
  · intro y
    exact List.filter_sublist rows
  · exact List.sorted_insertionSort _ _
  · exact ((List.perm_insertionSort _ _).nodup_iff).mpr ((rows.filterMap order_year).nodup_dedup)
  · intro y
    simp [sortedYears, List.mem_insertionSort, List.mem_dedup, List.mem_filterMap]

/-! ## Claim C9: sentinel idempotence and empty aggregates -/

/-- C9: applying the year filter with the `'Semua'` sentinel twice is the
same as applying it once, and for a selected year matching no row every
aggregation view (4.3–4.7) of the resulting filtered table is the empty
derived table (the views are total functions: no error is raised). -/
theorem C9_idempotent_and_empty (rows : List Row) (y : Int)
    (h : ∀ r ∈ rows, order_year r ≠ some y) :
    filtered_df (filtered_df rows YearSel.semua) YearSel.semua
      = filtered_df rows YearSel.semua
  ∧ filtered_df rows (YearSel.tahun y) = []
  ∧ orders_per_month (filtered_df rows (YearSel.tahun y)) = []
  ∧ revenue_per_month (filtered_df rows (YearSel.tahun y)) = []
  ∧ top10_products (filtered_df rows (YearSel.tahun y)) = []
  ∧ deliverySeries (filtered_df rows (YearSel.tahun y)) = []
  ∧ delivery_vs_review (filtered_df rows (YearSel.tahun y)) = []
  ∧ avg_delivery (filtered_df rows (YearSel.tahun y)) = [] := by
  have hempty : filtered_df rows (YearSel.tahun y) = [] := by
    simp only [filtered_df]
    rw [List.filter_eq_nil_iff]
    intro r hr
    simpa using h r hr
  refine ⟨rfl, hempty, ?_, ?_, ?_, ?_, ?_, ?_⟩ <;> rw [hempty] <;> rfl

/-- Witness for C9 at a concrete table and a year matching no rows. -/
theorem C9_witness :
    (∀ r ∈ wRows, order_year r ≠ some 1999)
  ∧ orders_per_month (filtered_df wRows (YearSel.tahun 1999)) = [] :=
  ⟨by decide, (C9_idempotent_and_empty wRows 1999 (by decide)).2.2.1⟩

/-! ## Claim C1: post-preparation delivery-time validity -/

/-- C1: when preparation succeeds, every surviving row carries a present,
non-negative `delivery_time_days`, and the surviving rows are a sublist
of the (post-derivation) table's rows — rows are dropped, never has a
`delivery_time_days` value been altered to pass the filter. -/
theorem C1_prepared_delivery_valid (t t' : Table) (h : prepare t = Except.ok t') :
    (∀ r ∈ t'.rows, ∃ d, r.delivery_time_days = some d ∧ 0 ≤ d)
  ∧ t'.rows.Sublist (deriveDeliveryTimeDays t).rows := by
  unfold prepare at h
  by_cases h1 : (deriveDeliveryTimeDays t).hasDeliveryTimeDaysCol
  · simp only [h1, if_true] at h
    by_cases h2 : (deriveDeliveryTimeDays t).hasPurchaseTimestampCol
    · simp only [h2, if_true] at h
      cases h
      constructor
      · intro r hr
        have hmem := (List.mem_filter.mp hr)
        have hnn := hmem.2
        cases hd : r.delivery_time_days with
        | none => simp [nonnegDelivery, hd] at hnn
        | some d =>
          refine ⟨d, rfl, ?_⟩
          simpa [nonnegDelivery, hd] using hnn
      · exact (List.filter_sublist _).trans (List.filter_sublist _)
    · simp [h2] at h
  · simp [h1] at h

/-- Demo prepared run for the C1 witness. -/
theorem C1_witness :
    prepare (Table.mk true true true [wRow1, rowNoPurchase])
      = Except.ok (Table.mk true true true [wRow1, rowNoPurchase])
  ∧ ∃ d, wRow1.delivery_time_days = some d ∧ 0 ≤ d := by
  have hp : prepare (Table.mk true true true [wRow1, rowNoPurchase])
      = Except.ok (Table.mk true true true [wRow1, rowNoPurchase]) := rfl
  refine ⟨hp, ?_⟩
  exact (C1_prepared_delivery_valid _ _ hp).1 wRow1 (by decide)

/-! ## Claim C2: both column fallbacks absent -/

/-- C2 (amended): when `delivery_time_days` is absent and at least one of
the two source columns is absent, the column stays absent and the filter
step (line 55) raises `KeyError: 'delivery_time_days'` — the pipeline
halts with an error instead of producing an empty prepared table. -/
theorem C2_missing_columns_keyerror (t : Table)
    (h1 : t.hasDeliveryTimeDaysCol = false)
    (h2 : t.hasDeliveredDateCol = false ∨ t.hasPurchaseTimestampCol = false) :
    (deriveDeliveryTimeDays t).hasDeliveryTimeDaysCol = false
  ∧ prepare t = Except.error "KeyError: delivery_time_days" := by
  have hder : deriveDeliveryTimeDays t = t := by
    unfold deriveDeliveryTimeDays
    rcases h2 with h2 | h2 <;> simp [h1, h2]
  constructor
  · rw [hder, h1]
  · unfold prepare
    rw [hder]
    simp [h1]

/-- Witness for the amended C2 at a concrete one-row table with no
`delivery_time_days` and no delivered-date column. -/
theorem C2_witness :
    prepare (Table.mk false false true [wRow1]) = Except.error "KeyError: delivery_time_days" :=
  (C2_missing_columns_keyerror (Table.mk false false true [wRow1]) rfl (Or.inl rfl)).2

/-- Counterexample to C2 as stated: at this concrete input (a non-empty
table lacking `delivery_time_days` and both source columns) preparation
does not return a table at all — it fails with a `KeyError` — so no
"empty prepared table" is produced. -/
theorem C2_counterexample :
    prepare (Table.mk false false false [wRow1, wRow2])
      = Except.error "KeyError: delivery_time_days" := rfl

/-! ## Claim C8: best-effort date coercion -/

/-- C8: the coercion loop is total (it always returns a table — no error
is surfaced, the pipeline does not halt), it touches exactly the
date-like columns, a column whose parse fails is left in its original
form, and a successful parse replaces the column values; in particular
when every parse fails the whole table is returned unchanged. -/
theorem C8_date_coercion (α : Type) (toDatetime : String → α → Option α)
    (cols : List (String × α)) :
    (coerceDateCols toDatetime cols).map Prod.fst = cols.map Prod.fst
  ∧ (coerceDateCols toDatetime cols).length = cols.length
  ∧ (∀ p ∈ cols.zip (coerceDateCols toDatetime cols),
        (isDateCol p.1.1 = false → p.2 = p.1)
      ∧ (toDatetime p.1.1 p.1.2 = none → p.2 = p.1)
      ∧ (∀ v, isDateCol p.1.1 = true → toDatetime p.1.1 p.1.2 = some v →
            p.2 = (p.1.1, v)))
  ∧ ((∀ n v, toDatetime n v = none) → coerceDateCols toDatetime cols = cols) := by
  have hzipgen : ∀ {β γ : Type} (f : β → γ) (l : List β),
      l.zip (l.map f) = l.map (fun a => (a, f a)) := by
    intro β γ f l
    induction l with
    | nil => rfl
    | cons a as ih => simp [ih]
  have hzip : cols.zip (coerceDateCols toDatetime cols)
      = cols.map (fun c => (c,
          if isDateCol c.1 then
            match toDatetime c.1 c.2 with
            | some v => (c.1, v)
            | none => c
          else c)) :=
    hzipgen _ cols
  refine ⟨?_, ?_, ?_, ?_⟩
  · unfold coerceDateCols
    rw [List.map_map]
    apply List.map_congr_left
    intro c _
    by_cases hc : isDateCol c.1 <;> cases htd : toDatetime c.1 c.2 <;>
      simp [hc, htd, Function.comp]
  · unfold coerceDateCols
    rw [List.length_map]
  · intro p hp
    rw [hzip] at hp
    rcases List.mem_map.mp hp with ⟨c, _, hc⟩
    cases hc
    refine ⟨?_, ?_, ?_⟩
    · intro hdc; simp [hdc]
    · intro htd
      by_cases hc : isDateCol c.1 <;> simp [hc, htd]
    · intro v hdc htd
      simp [hdc, htd]
  · intro hfail
    unfold coerceDateCols
    have : ∀ c ∈ cols, (if isDateCol c.1 then
        match toDatetime c.1 c.2 with
        | some v => (c.1, v)
        | none => c
      else c) = c := by
      intro c _
      by_cases hc : isDateCol c.1 <;> simp [hc, hfail]
    rw [List.map_congr_left this]
    exact List.map_id cols

/-- Witness for C8: a concrete table with one date-like column that
parses, one non-date column, and one date-like column whose parse fails;
each is handled as the theorem states. -/
theorem C8_witness :
    (("order_date", 3) , ("order_date", 4)) ∈
        ([("order_date", 3), ("price", 4), ("bad_date", 5)].zip
          (coerceDateCols
            (fun n v => if n = "bad_date" then none else some (v + 1))
            [("order_date", 3), ("price", 4), ("bad_date", 5)]))
  ∧ isDateCol "order_date" = true
  ∧ (fun (n : String) (v : Nat) => if n = "bad_date" then none else some (v + 1))
        "order_date" 3 = some 4
  ∧ (("order_date", 3) , ("order_date", 4)).2 = ("order_date", 4) := by
  refine ⟨by decide, by decide, by decide, ?_⟩
  exact ((C8_date_coercion Nat
      (fun n v => if n = "bad_date" then none else some (v + 1))
      [("order_date", 3), ("price", 4), ("bad_date", 5)]).2.2.1
    (("order_date", 3), ("order_date", 4)) (by decide)).2.2 4 (by decide) (by decide)

/-! ## Claim C5: monthly distinct order counts -/

theorem mem_keyPairs_iff {K : Type} [DecidableEq K] (key : Row → Option K)
    (rest : List Row) (k₀ : K) (a : String) :
    (k₀, a) ∈ rest.filterMap (fun r => (key r).map (fun k => (k, r.order_id)))
      ↔ a ∈ (rest.filter (fun x => decide (key x = some k₀))).map Row.order_id := by
  simp only [List.mem_filterMap, List.mem_map, List.mem_filter,
    Option.map_eq_some', Prod.mk.injEq, decide_eq_true_eq]
  constructor
  · rintro ⟨r, hr, k, hk, rfl, rfl⟩
    exact ⟨r, ⟨hr, hk⟩, rfl⟩
  · rintro ⟨r, ⟨hr, hk⟩, rfl⟩
    exact ⟨r, hr, k₀, hk, rfl, rfl⟩

theorem sum_groups_nunique {K : Type} [DecidableEq K]
    (key : Row → Option K) (ks : List K) (hnd : ks.Nodup)
    (rows : List Row) (hcov : ∀ r ∈ rows, ∀ k, key r = some k → k ∈ ks) :
    (ks.map (fun k =>
        (((rows.filter (fun r => decide (key r = some k))).map Row.order_id).dedup).length)).sum
      = ((rows.filterMap (fun r => (key r).map (fun k => (k, r.order_id)))).dedup).length := by
  induction rows with
  | nil => simp
  | cons r rest ih =>
    have hcov' : ∀ x ∈ rest, ∀ k, key x = some k → k ∈ ks :=
      fun x hx => hcov x (List.mem_cons_of_mem _ hx)
    cases hkr : key r with
    | none =>
      have hcong : ∀ k ∈ ks,
          (((List.filter (fun x => decide (key x = some k)) (r :: rest)).map Row.order_id).dedup).length
            = (((List.filter (fun x => decide (key x = some k)) rest).map Row.order_id).dedup).length := by
        intro k _
        simp [List.filter_cons, hkr]
      rw [sum_map_congr hcong, ih hcov']
      simp [List.filterMap_cons, hkr]
    | some k₀ =>
      have hk₀ : k₀ ∈ ks := hcov r (List.mem_cons_self r rest) k₀ hkr
      have hpairs : (r :: rest).filterMap (fun x => (key x).map (fun k => (k, x.order_id)))
          = (k₀, r.order_id) :: rest.filterMap (fun x => (key x).map (fun k => (k, x.order_id))) := by
        simp [List.filterMap_cons, hkr]
      have hother : ∀ k, k ≠ k₀ →
          (((List.filter (fun x => decide (key x = some k)) (r :: rest)).map Row.order_id).dedup).length
            = (((List.filter (fun x => decide (key x = some k)) rest).map Row.order_id).dedup).length := by
        intro k hne
        have hfalse : (decide (key r = some k)) = false := by
          simp [hkr]
          exact fun he => hne he.symm
        simp [List.filter_cons, hfalse]
      by_cases hmem : (k₀, r.order_id)
          ∈ rest.filterMap (fun x => (key x).map (fun k => (k, x.order_id)))
      · have hmem' : r.order_id
            ∈ (rest.filter (fun x => decide (key x = some k₀))).map Row.order_id :=
          (mem_keyPairs_iff key rest k₀ r.order_id).mp hmem
        have hcong : ∀ k ∈ ks,
            (((List.filter (fun x => decide (key x = some k)) (r :: rest)).map Row.order_id).dedup).length
              = (((List.filter (fun x => decide (key x = some k)) rest).map Row.order_id).dedup).length := by
          intro k _
          by_cases hk : k = k₀
          · subst hk
            simp [List.filter_cons, hkr, List.dedup_cons_of_mem hmem']
          · exact hother k hk
        rw [sum_map_congr hcong, ih hcov', hpairs, List.dedup_cons_of_mem hmem]
      · have hmem' : r.order_id
            ∉ (rest.filter (fun x => decide (key x = some k₀))).map Row.order_id :=
          fun hc => hmem ((mem_keyPairs_iff key rest k₀ r.order_id).mpr hc)
        have h₀ :
            (((List.filter (fun x => decide (key x = some k₀)) (r :: rest)).map Row.order_id).dedup).length
              = 1 + (((List.filter (fun x => decide (key x = some k₀)) rest).map Row.order_id).dedup).length := by
          simp [List.filter_cons, hkr, List.dedup_cons_of_not_mem hmem', Nat.add_comm]
        rw [sum_map_update hnd hk₀ h₀ hother, ih hcov', hpairs,
          List.dedup_cons_of_not_mem hmem]
        simp [Nat.add_comm]

theorem dedup_length_map_snd {K A : Type} [DecidableEq K] [DecidableEq A]
    (l : List (K × A)) (h : ∀ p ∈ l, ∀ q ∈ l, p.2 = q.2 → p.1 = q.1) :
    l.dedup.length = (l.map Prod.snd).dedup.length := by
  induction l with
  | nil => rfl
  | cons p rest ih =>
    have h' : ∀ a ∈ rest, ∀ b ∈ rest, a.2 = b.2 → a.1 = b.1 :=
      fun a ha b hb => h a (List.mem_cons_of_mem _ ha) b (List.mem_cons_of_mem _ hb)
    by_cases hm : p ∈ rest
    · have hm2 : p.2 ∈ rest.map Prod.snd := List.mem_map_of_mem _ hm
      rw [List.dedup_cons_of_mem hm, List.map_cons, List.dedup_cons_of_mem hm2, ih h']
    · have hm2 : p.2 ∉ rest.map Prod.snd := by
        intro hc
        rcases List.mem_map.mp hc with ⟨q, hq, he⟩
        have h1 : p.1 = q.1 :=
          h p (List.mem_cons_self p rest) q (List.mem_cons_of_mem _ hq) he.symm
        have hpq : p = q := Prod.ext h1 he.symm
        exact hm (hpq ▸ hq)
      rw [List.dedup_cons_of_not_mem hm, List.map_cons, List.dedup_cons_of_not_mem hm2]
      simp [ih h']

theorem keyPairs_map_snd {K : Type} [DecidableEq K] (key : Row → Option K)
    (rows : List Row) (h : ∀ r ∈ rows, (key r).isSome) :
    (rows.filterMap (fun r => (key r).map (fun k => (k, r.order_id)))).map Prod.snd
      = rows.map Row.order_id := by
  induction rows with
  | nil => rfl
  | cons r rest ih =>
    have hr := h r (List.mem_cons_self r rest)
    have ih' := ih (fun x hx => h x (List.mem_cons_of_mem _ hx))
    cases hkr : key r with
    | none => rw [hkr] at hr; simp at hr
    | some k => simp [List.filterMap_cons, hkr, ih']

/-- C5 (amended): the monthly order count view's total equals the number
of distinct (purchase month, `order_id`) pairs among rows whose purchase
timestamp is present; it equals the number of distinct `order_id` values
whenever every purchase timestamp is present and every `order_id` falls
in a single month. -/
theorem C5_monthly_order_count (rows : List Row) :
    ((orders_per_month rows).map Prod.snd).sum
      = ((rows.filterMap (fun r => (order_year_month r).map (fun k => (k, r.order_id)))).dedup).length
    ∧ ((∀ r ∈ rows, (order_year_month r).isSome) →
       (∀ r ∈ rows, ∀ r' ∈ rows, r.order_id = r'.order_id →
          order_year_month r = order_year_month r') →
       ((orders_per_month rows).map Prod.snd).sum = ((rows.map Row.order_id).dedup).length) := by
  have hmain : ((orders_per_month rows).map Prod.snd).sum
      = ((rows.filterMap (fun r => (order_year_month r).map (fun k => (k, r.order_id)))).dedup).length := by
    have h1 : (orders_per_month rows).map Prod.snd
        = (List.insertionSort periodLe (rows.filterMap order_year_month).dedup).map
            (fun k => (((rows.filter (fun r => decide (order_year_month r = some k))).map Row.order_id).dedup).length) := by
      simp [orders_per_month, groupBy, List.map_map, Function.comp_def]
    rw [h1]
    apply sum_groups_nunique
    · exact ((List.perm_insertionSort periodLe _).nodup_iff).mpr
        ((rows.filterMap order_year_month).nodup_dedup)
    · intro r hr k hk
      simp [List.mem_insertionSort, List.mem_dedup, List.mem_filterMap]
      exact ⟨r, hr, hk⟩
  refine ⟨hmain, fun hall hdet => ?_⟩
  rw [hmain]
  have hpairsdet : ∀ p ∈ rows.filterMap (fun r => (order_year_month r).map (fun k => (k, r.order_id))),
      ∀ q ∈ rows.filterMap (fun r => (order_year_month r).map (fun k => (k, r.order_id))),
      p.2 = q.2 → p.1 = q.1 := by
    intro p hp q hq he
    rcases List.mem_filterMap.mp hp with ⟨r, hr, hpr⟩
    rcases List.mem_filterMap.mp hq with ⟨r', hr', hqr⟩
    rcases Option.map_eq_some'.mp hpr with ⟨k, hk, hkp⟩
    rcases Option.map_eq_some'.mp hqr with ⟨k', hk', hkq⟩
    cases hkp
    cases hkq
    have := hdet r hr r' hr' (by simpa using he)
    rw [hk, hk'] at this
    simpa using this
  rw [dedup_length_map_snd _ hpairsdet, keyPairs_map_snd order_year_month rows hall]

/-- Witness for C5: at a table whose rows all carry a purchase timestamp
and where each order sits in one month, the view's total equals the
distinct `order_id` count. -/
theorem C5_witness :
    (∀ r ∈ wRows, (order_year_month r).isSome)
  ∧ ((orders_per_month wRows).map Prod.snd).sum = ((wRows.map Row.order_id).dedup).length :=
  ⟨by decide, (C5_monthly_order_count wRows).2 (by decide) (by decide)⟩

/-- Counterexample to C5 as stated: across a prepared, sentinel-filtered
table in which `order_id` "o1" has item lines in January and February,
the view counts it once per month (total 2), while the table has a single
distinct `order_id`. -/
theorem C5_counterexample :
    prepare (Table.mk true true true [cx5Row1, cx5Row2])
      = Except.ok (Table.mk true true true [cx5Row1, cx5Row2])
  ∧ ((orders_per_month (filtered_df [cx5Row1, cx5Row2] YearSel.semua)).map Prod.snd).sum = 2
  ∧ (((filtered_df [cx5Row1, cx5Row2] YearSel.semua).map Row.order_id).dedup).length = 1 :=
  ⟨rfl, by decide, by decide⟩

/-! ## Claim C3: top-10 category view -/

/-- C3: the top-10 view has at most 10 rows, at most one per category,
each row's value is that category's summed revenue over the filtered
table (and the category occurs in the table), rows are ordered by summed
revenue descending, and every included row's revenue is at least the
summed revenue of every excluded category. -/
theorem C3_top10_categories (rows : List Row) :
    (top10_products rows).length ≤ 10
  ∧ ((top10_products rows).map Prod.fst).Nodup
  ∧ (∀ p ∈ top10_products rows,
       p.2 = categoryRevenue rows p.1 ∧ some p.1 ∈ rows.map Row.product_category_name)
  ∧ (top10_products rows).Pairwise revDesc
  ∧ (∀ c, some c ∈ rows.map Row.product_category_name →
       c ∉ (top10_products rows).map Prod.fst →
       ∀ p ∈ top10_products rows, categoryRevenue rows c ≤ p.2) := by
  set agg := (groupBy strLe Row.product_category_name rows).map
      (fun g => (g.1, (g.2.map Row.price).sum)) with hagg
  set srt := List.insertionSort revDesc agg with hsrt
  have htop : top10_products rows = srt.take 10 := rfl
  have hperm : List.Perm srt agg := List.perm_insertionSort revDesc agg
  have haggfst : agg.map Prod.fst = (groupBy strLe Row.product_category_name rows).map Prod.fst := by
    rw [hagg, List.map_map]
    rfl
  have hsrtfst_nodup : (srt.map Prod.fst).Nodup := by
    refine ((hperm.map Prod.fst).nodup_iff).mpr ?_
    rw [haggfst]
    exact groupBy_keys_nodup _ _ rows
  have hmem_agg : ∀ p ∈ agg,
      p.2 = categoryRevenue rows p.1 ∧ some p.1 ∈ rows.map Row.product_category_name := by
    intro p hp
    rw [hagg] at hp
    rcases List.mem_map.mp hp with ⟨g, hg, hgp⟩
    cases hgp
    constructor
    · rw [mem_groupBy_eq _ _ rows g hg]
      rfl
    · exact (mem_groupBy_keys _ _ rows g.1).mp (List.mem_map_of_mem Prod.fst hg)
  have hsorted : srt.Pairwise revDesc := List.sorted_insertionSort revDesc agg
  refine ⟨?_, ?_, ?_, ?_, ?_⟩
  · rw [htop]
    exact List.length_take_le 10 srt
  · rw [htop]
    exact List.Nodup.sublist ((List.take_sublist 10 srt).map Prod.fst) hsrtfst_nodup
  · intro p hp
    exact hmem_agg p (hperm.mem_iff.mp (List.take_subset 10 srt hp))
  · rw [htop]
    exact hsorted.sublist (List.take_sublist 10 srt)
  · intro c hc hnot p hp
    have hckey : c ∈ (groupBy strLe Row.product_category_name rows).map Prod.fst :=
      (mem_groupBy_keys _ _ rows c).mpr hc
    rcases List.mem_map.mp hckey with ⟨g, hg, hgc⟩
    have hcagg : (g.1, (g.2.map Row.price).sum) ∈ agg := by
      rw [hagg]
      exact List.mem_map_of_mem _ hg
    have hcsrt : (g.1, (g.2.map Row.price).sum) ∈ srt := hperm.mem_iff.mpr hcagg
    have hsplit : srt = srt.take 10 ++ srt.drop 10 := (List.take_append_drop 10 srt).symm
    have hdrop : (g.1, (g.2.map Row.price).sum) ∈ srt.drop 10 := by
      rcases List.mem_append.mp (hsplit ▸ hcsrt) with hin | hin
      · exfalso
        apply hnot
        rw [htop]
        have : c ∈ (srt.take 10).map Prod.fst := by
          rw [show c = (g.1, (g.2.map Row.price).sum).1 from hgc.symm]
          exact List.mem_map_of_mem Prod.fst hin
        exact this
      · exact hin
    have hpair : ∀ a ∈ srt.take 10, ∀ b ∈ srt.drop 10, revDesc a b := by
      have := hsplit ▸ hsorted
      exact (List.pairwise_append.mp this).2.2
    have hrd : revDesc p (g.1, (g.2.map Row.price).sum) :=
      hpair p (htop ▸ hp) _ hdrop
    have hval : (g.2.map Row.price).sum = categoryRevenue rows c := by
      rw [mem_groupBy_eq _ _ rows g hg, hgc]
      rfl
    calc categoryRevenue rows c = (g.2.map Row.price).sum := hval.symm
      _ ≤ p.2 := hrd

/-- Witness for C3: with eleven categories, category "c11" (revenue 10)
is excluded and its revenue is at most that of the included top row. -/
theorem C3_witness :
    some "c11" ∈ c3Rows.map Row.product_category_name
  ∧ "c11" ∉ (top10_products c3Rows).map Prod.fst
  ∧ ("c01", (110 : Int)) ∈ top10_products c3Rows
  ∧ categoryRevenue c3Rows "c11" ≤ (("c01", (110 : Int))).2 :=
  ⟨by decide, by decide, by decide,
    (C3_top10_categories c3Rows).2.2.2.2 "c11" (by decide) (by decide)
      ("c01", (110 : Int)) (by decide)⟩

/-! ## Claim C6: review-score delivery views -/

/-- C6: both views are the mean of `delivery_time_days` grouped by
`review_score` with missing scores forming no group; the explicitly
sorted view (Output B) is exactly the first view (Output A), which is
already sorted by `review_score` ascending, with one row per score. -/
theorem C6_review_score_views (rows : List Row) :
    avg_delivery rows = delivery_vs_review rows
  ∧ (delivery_vs_review rows).Pairwise scoreAsc
  ∧ ((delivery_vs_review rows).map Prod.fst).Nodup
  ∧ (∀ s, s ∈ (delivery_vs_review rows).map Prod.fst ↔ some s ∈ rows.map Row.review_score)
  ∧ (∀ p ∈ delivery_vs_review rows,
       p.2 = mean ((rows.filter (fun r => decide (r.review_score = some p.1))).filterMap
         Row.delivery_time_days)) := by
  have hfst : (delivery_vs_review rows).map Prod.fst
      = (groupBy (· ≤ ·) Row.review_score rows).map Prod.fst := by
    rw [delivery_vs_review, List.map_map]
    rfl
  have hkeys : ((rows.filterMap Row.review_score).dedup.insertionSort (· ≤ ·)).Sorted (· ≤ ·) :=
    List.sorted_insertionSort _ _
  have hsorted : (delivery_vs_review rows).Pairwise scoreAsc := by
    rw [delivery_vs_review, groupBy, List.map_map]
    refine (List.pairwise_map).mpr ?_
    exact hkeys.imp (fun h => h)
  refine ⟨?_, hsorted, ?_, ?_, ?_⟩
  · exact List.Sorted.insertionSort_eq hsorted
  · rw [hfst]
    exact groupBy_keys_nodup _ _ rows
  · intro s
    rw [hfst]
    exact mem_groupBy_keys _ _ rows s
  · intro p hp
    rw [delivery_vs_review] at hp
    rcases List.mem_map.mp hp with ⟨g, hg, hgp⟩
    cases hgp
    rw [mem_groupBy_eq _ _ rows g hg]

/-- Witness for C6: the group of score 4 in the demo table has the mean
of its (single) delivery time. -/
theorem C6_witness :
    ((4 : Int), mean [5]) ∈ delivery_vs_review wRows
  ∧ mean [5]
      = mean ((wRows.filter (fun r => decide (r.review_score = some 4))).filterMap
          Row.delivery_time_days) := by
  have hmem : ((4 : Int), mean [5]) ∈ delivery_vs_review wRows := by
    simp [delivery_vs_review, groupBy, wRows, wRow1, wRow2, List.insertionSort,
      List.orderedInsert, List.dedup]
  exact ⟨hmem, (C6_review_score_views wRows).2.2.2.2 (4, mean [5]) hmem⟩

/-! ## Claim C10: a surviving row with no purchase timestamp -/

theorem prepRows_append_cons (pre post : List Row) (r : Row) (d : Int)
    (hd : r.delivery_time_days = some d) (hd0 : 0 ≤ d) :
    prepRows (pre ++ r :: post) = prepRows pre ++ r :: prepRows post := by
  unfold prepRows
  have h1 : notnaDelivery r = true := by simp [notnaDelivery, hd]
  have h2 : nonnegDelivery r = true := by
    simp [nonnegDelivery, hd]
    exact hd0
  simp [List.filter_append, List.filter_cons, h1, h2]

theorem groupBy_middle_none {K : Type} [DecidableEq K] (rel : K → K → Prop) [DecidableRel rel]
    (key : Row → Option K) (pre post : List Row) (r : Row) (h : key r = none) :
    groupBy rel key (pre ++ r :: post) = groupBy rel key (pre ++ post) := by
  unfold groupBy
  have h1 : (pre ++ r :: post).filterMap key = (pre ++ post).filterMap key := by
    simp [List.filterMap_append, List.filterMap_cons, h]
  rw [h1]
  apply List.map_congr_left
  intro k _
  have h2 : (pre ++ r :: post).filter (fun x => decide (key x = some k))
      = (pre ++ post).filter (fun x => decide (key x = some k)) := by
    simp [List.filter_append, List.filter_cons, h]
  rw [h2]

/-- C10: if the input table already has a `delivery_time_days` column, a
row with a missing purchase timestamp but a present, non-negative
delivery time survives preparation unchanged; its `order_year` and
`order_year_month` are missing; it adds nothing to the selectable year
options and nothing to either monthly view; yet under the `'Semua'`
sentinel its price is counted in its category's top-10 revenue, its
delivery time appears in the distribution series, and it belongs to the
mean-delivery group of its review score. -/
theorem C10_row_without_purchase (t : Table) (pre post : List Row) (r : Row) (d : Int)
    (hrows : t.rows = pre ++ r :: post)
    (hcol : t.hasDeliveryTimeDaysCol = true)
    (hpcol : t.hasPurchaseTimestampCol = true)
    (hp : r.order_purchase_timestamp = none)
    (hd : r.delivery_time_days = some d) (hd0 : 0 ≤ d) :
    prepare t = Except.ok { t with rows := prepRows pre ++ r :: prepRows post }
  ∧ order_year r = none
  ∧ order_year_month r = none
  ∧ tahun_opsi (prepRows pre ++ r :: prepRows post)
      = tahun_opsi (prepRows pre ++ prepRows post)
  ∧ orders_per_month (filtered_df (prepRows pre ++ r :: prepRows post) YearSel.semua)
      = orders_per_month (prepRows pre ++ prepRows post)
  ∧ revenue_per_month (filtered_df (prepRows pre ++ r :: prepRows post) YearSel.semua)
      = revenue_per_month (prepRows pre ++ prepRows post)
  ∧ (∀ c, r.product_category_name = some c →
      categoryRevenue (filtered_df (prepRows pre ++ r :: prepRows post) YearSel.semua) c
        = categoryRevenue (prepRows pre ++ prepRows post) c + r.price)
  ∧ deliverySeries (filtered_df (prepRows pre ++ r :: prepRows post) YearSel.semua)
      = deliverySeries (prepRows pre) ++ d :: deliverySeries (prepRows post)
  ∧ (∀ s, r.review_score = some s →
      s ∈ (groupBy (· ≤ ·) Row.review_score
          (filtered_df (prepRows pre ++ r :: prepRows post) YearSel.semua)).map Prod.fst
      ∧ ∀ g ∈ groupBy (· ≤ ·) Row.review_score
          (filtered_df (prepRows pre ++ r :: prepRows post) YearSel.semua),
          g.1 = s → r ∈ g.2) := by
  have hyr : order_year r = none := by simp [order_year, hp]
  have hym : order_year_month r = none := by simp [order_year_month, hp]
  have hmid : r ∈ prepRows pre ++ r :: prepRows post := by
    simp
  refine ⟨?_, hyr, hym, ?_, ?_, ?_, ?_, ?_, ?_⟩
  · unfold prepare
    have hder : deriveDeliveryTimeDays t = t := by
      unfold deriveDeliveryTimeDays
      simp [hcol]
    rw [hder]
    simp only [hcol, hpcol, if_true]
    rw [show ((t.rows.filter notnaDelivery).filter nonnegDelivery) = prepRows t.rows from rfl,
      hrows, prepRows_append_cons pre post r d hd hd0]
  · unfold tahun_opsi sortedYears
    have h1 : (prepRows pre ++ r :: prepRows post).filterMap order_year
        = (prepRows pre ++ prepRows post).filterMap order_year := by
      simp [List.filterMap_append, List.filterMap_cons, hyr]
    rw [h1]
  · show orders_per_month (prepRows pre ++ r :: prepRows post) = _
    unfold orders_per_month
    rw [groupBy_middle_none periodLe order_year_month _ _ r hym]
  · show revenue_per_month (prepRows pre ++ r :: prepRows post) = _
    unfold revenue_per_month
    rw [groupBy_middle_none periodLe order_year_month _ _ r hym]
  · intro c hc
    show categoryRevenue (prepRows pre ++ r :: prepRows post) c = _
    have hctrue : (decide (r.product_category_name = some c)) = true := by simp [hc]
    unfold categoryRevenue
    simp only [List.filter_append, List.filter_cons, hctrue, if_true, List.map_append,
      List.map_cons, List.sum_append, List.sum_cons]
    omega
  · show deliverySeries (prepRows pre ++ r :: prepRows post) = _
    unfold deliverySeries
    simp [List.filterMap_append, List.filterMap_cons, hd]
  · intro s hs
    constructor
    · refine (mem_groupBy_keys _ _ _ s).mpr ?_
      have : some s ∈ (prepRows pre ++ r :: prepRows post).map Row.review_score := by
        rw [show some s = r.review_score from hs.symm]
        exact List.mem_map_of_mem Row.review_score hmid
      exact this
    · intro g hg hg1
      rw [mem_groupBy_eq _ _ _ g hg]
      refine List.mem_filter.mpr ⟨hmid, ?_⟩
      simp [hs, hg1]

/-- Witness for C10 at a two-row table: the purchase-less row survives
preparation, adds no year option, and its price is added to its
category's revenue. -/
theorem C10_witness :
    prepare (Table.mk true true true [wRow1, rowNoPurchase])
      = Except.ok (Table.mk true true true
          (prepRows [wRow1] ++ rowNoPurchase :: prepRows []))
  ∧ tahun_opsi (prepRows [wRow1] ++ rowNoPurchase :: prepRows [])
      = tahun_opsi (prepRows [wRow1] ++ prepRows [])
  ∧ categoryRevenue
        (filtered_df (prepRows [wRow1] ++ rowNoPurchase :: prepRows []) YearSel.semua) "toys"
      = categoryRevenue (prepRows [wRow1] ++ prepRows []) "toys" + rowNoPurchase.price := by
  have h := C10_row_without_purchase (Table.mk true true true [wRow1, rowNoPurchase])
      [wRow1] [] rowNoPurchase 1 rfl rfl rfl rfl rfl (by decide)
  exact ⟨h.1, h.2.2.2.1, h.2.2.2.2.2.2.1 "toys" rfl⟩

/-- Witness for C7 at a concrete prepared table. -/
theorem C7_witness :
    filtered_df wRows YearSel.semua = wRows
  ∧ tahun_opsi wRows = YearSel.semua :: (sortedYears wRows).map YearSel.tahun :=
  ⟨(C7_year_filter wRows).1, (C7_year_filter wRows).2.2.2.1⟩
